import Mathlib

/-!
Shallow embedding of the generation worker of dir-pixel (src/main.py).

The worker is the class ImageGeneratorThread: it enumerates image files
(get_image_files, lines 34-39), then run (lines 41-90) iterates the files,
resolves a prompt per file, performs an HTTP GET, writes or converts the
result, and emits progress/status/error/terminal signals.  The interactive
shell (ImageReplacerApp) is out of scope except for start_generation's
output-folder setup (lines 400-401), which the spec attributes to the run
start path.

Effects are modelled explicitly:
- emitted Qt signals become an ordered list of Event values;
- HTTP, JPEG re-encoding (PIL) and file writes become oracle functions in
  an Env record, returning Except to model raised exceptions;
- the cooperative cancellation flag becomes cancelIdx : Option Nat — some c
  means the flag turns true just before the c-th cancellation check point
  (check points are the top of loop iteration 0, 1, ... and the final check
  at line 86, which is check point files.length);
- bytes are List Nat.
-/

namespace DirPixel

/-- Python str.lower for the ASCII range (the extensions and filenames the
claims concern are ASCII; Char.toLower lowers exactly ASCII uppercase). -/
def pyLower (s : String) : String := ⟨s.data.map Char.toLower⟩

/-- Index of the last occurrence of a character in a list, if any. -/
def lastIdxOf (c : Char) (cs : List Char) : Option Nat :=
  match cs.reverse.findIdx? (· == c) with
  | none => none
  | some j => some (cs.length - 1 - j)

/-- Python os.path.splitext for a plain filename (no path separator, the
only inputs the worker passes): splits at the last dot, except that a name
whose characters before the last dot are all dots (e.g. ".bashrc") has no
extension. -/
def splitext (s : String) : String × String :=
  match lastIdxOf '.' s.data with
  | none => (s, "")
  | some p =>
      if (s.data.take p).all (· == '.') then (s, "")
      else (⟨s.data.take p⟩, ⟨s.data.drop p⟩)

/-- Python os.path.join for a directory not ending in a separator and a
relative second component (the only way the program calls it). -/
def osJoin (a b : String) : String := a ++ "/" ++ b

/-- Qt signals emitted by the worker, in emission order:
progress_updated, status_updated, error_occurred, finished_all, cancelled. -/
inductive Event where
  | progress (pct : Nat)
  | status (msg : String)
  | error (msg : String)
  | finishedAll
  | cancelledSig
  deriving Repr, DecidableEq

/-- The prompts dict (filename -> prompt, with the reserved key "global"). -/
def PromptMap : Type := String → Option String

/-- Oracles for the effectful operations of the per-file body; an
Except.error models a raised exception carrying str(e). -/
structure Env where
  /-- requests.get(url, timeout=30): status_code and content, or exception. -/
  httpGet : String → Except String (Nat × List Nat)
  /-- Image.open(BytesIO(content)) then convert RGB and save as JPEG with the
  given quality at the given path: the bytes written, or exception from
  decode or save. -/
  jpegSave : List Nat → Nat → String → Except String (List Nat)
  /-- open(path, wb) then write(content): unit, or exception. -/
  writeFile : String → List Nat → Except String Unit

/-- Lines 55-57: prompt = prompts.get(filename, prompts.get('global', ''));
if filename not in prompts and prompt: append the unique-variation suffix. -/
def resolvePrompt (prompts : PromptMap) (filename : String) : String :=
  let prompt := (prompts filename).getD ((prompts "global").getD "")
  if prompts filename = none ∧ prompt ≠ "" then
    prompt ++ " - unique variation for " ++ filename
  else prompt

/-- Line 62: the request URL built from the resolved prompt. -/
def urlOf (prompt : String) : String :=
  "https://pollinations.ai/p/" ++ prompt ++ "?nologo=true"

/-- Observable actions of a run fragment: emitted events, issued HTTP
requests (URLs, in order), and file writes (path and bytes, in order). -/
structure FileResult where
  events : List Event
  requests : List String
  writes : List (String × List Nat)
  deriving Repr, DecidableEq

def FileResult.cat (a b : FileResult) : FileResult :=
  ⟨a.events ++ b.events, a.requests ++ b.requests, a.writes ++ b.writes⟩

def FileResult.empty : FileResult := ⟨[], [], []⟩

/-- Lines 54-82, the try/except body for one file: skip on empty prompt
(line 58-60), otherwise GET the URL; on 200, JPEG-family extensions are
re-encoded via PIL at quality 95 to base.jpg (lines 67-72), anything else
is written raw to base.png (lines 73-78); non-200 gives a failure status
(line 80); any exception gives an error event (lines 81-82). -/
def fileAttempt (env : Env) (prompts : PromptMap) (outputFolder filename : String) :
    FileResult :=
  let prompt := resolvePrompt prompts filename
  if prompt = "" then
    ⟨[Event.status ("Skipping " ++ filename ++ ": No prompt provided.")], [], []⟩
  else
    let url := urlOf prompt
    match env.httpGet url with
    | Except.error e =>
        ⟨[Event.error ("Error generating " ++ filename ++ ": " ++ e)], [url], []⟩
    | Except.ok (code, content) =>
        if code = 200 then
          let nameWithoutExt := (splitext filename).1
          let originalExt := pyLower (splitext filename).2
          if originalExt = ".jpg" ∨ originalExt = ".jpeg" then
            let outputPath := osJoin outputFolder (nameWithoutExt ++ ".jpg")
            match env.jpegSave content 95 outputPath with
            | Except.error e =>
                ⟨[Event.error ("Error generating " ++ filename ++ ": " ++ e)], [url], []⟩
            | Except.ok jpegBytes =>
                ⟨[Event.status ("Generated " ++ nameWithoutExt ++ ".jpg")], [url],
                  [(outputPath, jpegBytes)]⟩
          else
            let outputPath := osJoin outputFolder (nameWithoutExt ++ ".png")
            match env.writeFile outputPath content with
            | Except.error e =>
                ⟨[Event.error ("Error generating " ++ filename ++ ": " ++ e)], [url], []⟩
            | Except.ok _ =>
                ⟨[Event.status ("Generated " ++ nameWithoutExt ++ ".png")], [url],
                  [(outputPath, content)]⟩
        else
          ⟨[Event.status ("Failed to generate " ++ filename ++ ": HTTP " ++ toString code)],
            [url], []⟩

/-- Line 84, int((i + 1) / total * 100).  Python evaluates this in binary64
floating point and int truncates toward zero; for every total up to 49 the
binary64 value truncates to exactly the floor (i + 1) * 100 / total used
here (checked exhaustively), while for some larger totals binary64 rounding
yields one less than the exact floor (total = 50, i + 1 = 29 gives 57 where
the exact floor is 58).  Theorems about the numeric value therefore restrict
to totals where the two agree. -/
def progressValue (i total : Nat) : Nat := (i + 1) * 100 / total

/-- One loop iteration minus the cancellation check: the try/except body
followed by the progress emission of line 84 — which is skipped exactly when
the empty-prompt branch ran continue (line 60). -/
def fileTrace (env : Env) (prompts : PromptMap) (outputFolder : String)
    (total i : Nat) (filename : String) : FileResult :=
  let a := fileAttempt env prompts outputFolder filename
  if resolvePrompt prompts filename = "" then a
  else { a with events := a.events ++ [Event.progress (progressValue i total)] }

/-- Whether the _cancelled flag reads true at check point p. -/
def cancelledAt (cancelIdx : Option Nat) (p : Nat) : Bool :=
  match cancelIdx with
  | some c => decide (c ≤ p)
  | none => false

/-- Lines 50-51 and 89-90: the status message then the cancelled signal. -/
def cancelResult : FileResult :=
  ⟨[Event.status "Generation cancelled.", Event.cancelledSig], [], []⟩

/-- The for loop of lines 48-84 followed by the final check of lines 86-90,
carrying the current index i. -/
def runLoop (env : Env) (prompts : PromptMap) (outputFolder : String)
    (total : Nat) (cancelIdx : Option Nat) : Nat → List String → FileResult
  | i, [] =>
      if cancelledAt cancelIdx i then cancelResult
      else ⟨[Event.finishedAll], [], []⟩
  | i, filename :: rest =>
      if cancelledAt cancelIdx i then cancelResult
      else
        FileResult.cat (fileTrace env prompts outputFolder total i filename)
          (runLoop env prompts outputFolder total cancelIdx (i + 1) rest)

/-- ImageGeneratorThread.run (lines 41-90). -/
def run (env : Env) (files : List String) (prompts : PromptMap)
    (outputFolder : String) (cancelIdx : Option Nat) : FileResult :=
  if files.length = 0 then
    ⟨[Event.status "No image files found.", Event.finishedAll], [], []⟩
  else runLoop env prompts outputFolder files.length cancelIdx 0 files

/-- Line 37: any(filename.lower().endswith(ext) for ext in image_extensions).
Only the filename is lowercased; the extension is compared verbatim. -/
def matchesExtensions (image_extensions : List String) (filename : String) : Bool :=
  image_extensions.any (fun ext => (pyLower filename).endsWith ext)

/-- ImageGeneratorThread.get_image_files (lines 34-39); the result of
os.listdir(source_folder) is the listing oracle, Except.error modelling the
exception os.listdir raises on a missing or unreadable folder, which this
function does not catch. -/
def get_image_files (listing : Except String (List String))
    (image_extensions : List String) : Except String (List String) :=
  match listing with
  | Except.error e => Except.error e
  | Except.ok names => Except.ok (names.filter (matchesExtensions image_extensions))

/-- Line 400: output_folder = os.path.join(source_folder, "generated_images"). -/
def outputFolderOf (source_folder : String) : String :=
  osJoin source_folder "generated_images"

/-- Line 401: os.makedirs(output_folder, exist_ok=True) over a directory set
modelled as a list of paths; total — it fails neither when the directory is
missing (it creates it) nor when it already exists. -/
def makedirs (dirs : List String) (path : String) : List String :=
  if path ∈ dirs then dirs else dirs ++ [path]

/-- Lines 400-401 of ImageReplacerApp.start_generation: the output-folder
setup performed immediately before the worker is constructed. -/
def startGenerationSetup (source_folder : String) (dirs : List String) :
    String × List String :=
  let output_folder := outputFolderOf source_folder
  (output_folder, makedirs dirs output_folder)

/-- Modelled from the spec: arithmetic rounding of num / den to the nearest
integer (halves up), the reading of round in the claim that the i-th
progress value equals round((index + 1) / total * 100); used only to compare
the spec's words with the program, which truncates instead. -/
def specRound (num den : Nat) : Nat := (2 * num + den) / (2 * den)

/-- Terminal signals (finished_all and cancelled). -/
def isTerminal : Event → Bool
  | Event.finishedAll => true
  | Event.cancelledSig => true
  | _ => false

/-- Per-file notices: status and error events. -/
def isFileEvent : Event → Bool
  | Event.status _ => true
  | Event.error _ => true
  | _ => false

/-- The values of the progress events of a stream, in order. -/
def progressValues (evts : List Event) : List Nat :=
  evts.filterMap (fun e => match e with | Event.progress p => some p | _ => none)

/-- Whether a filename contains a path separator (listdir entries never do). -/
def strHasSlash (s : String) : Bool := s.data.any (· == '/')

/-- The per-file traces of a list of files starting at index i. -/
def tracesFrom (env : Env) (prompts : PromptMap) (outputFolder : String)
    (total : Nat) : Nat → List String → List FileResult
  | _, [] => []
  | i, f :: rest =>
      fileTrace env prompts outputFolder total i f ::
        tracesFrom env prompts outputFolder total (i + 1) rest

def catAll : List FileResult → FileResult
  | [] => FileResult.empty
  | r :: rs => FileResult.cat r (catAll rs)

/-- Concrete prompt map with only a global entry. -/
def pmGlobal : PromptMap := fun k => if k = "global" then some "sunset" else none

/-- Concrete prompt map whose global entry is the empty string. -/
def pmEmptyGlobal : PromptMap := fun k => if k = "global" then some "" else none

/-- Concrete prompt map: an empty per-file entry next to a non-empty global. -/
def pmEmptyEntry : PromptMap :=
  fun k => if k = "x.png" then some "" else if k = "global" then some "G" else none

/-- Concrete file list. -/
def files3 : List String := ["a.png", "b.png", "c.png"]

/-- Environment in which every operation succeeds and every GET returns 200. -/
def envAllOk : Env :=
  ⟨fun _ => Except.ok (200, [1, 2, 3]),
   fun content _q _path => Except.ok (content ++ [9]),
   fun _path _content => Except.ok ()⟩

/-- Environment in which every GET raises. -/
def envHttpFail : Env :=
  ⟨fun _ => Except.error "timeout",
   fun content _q _path => Except.ok content,
   fun _path _content => Except.ok ()⟩

/-- Concrete prompt map with a per-file entry and a global entry. -/
def pmCustom : PromptMap :=
  fun k => if k = "a.png" then some "castle" else if k = "global" then some "sunset" else none

/-- The terminal signal of a run as a function of the file list and the
cancellation point alone — deliberately independent of the oracles, because
no per-file exception influences which terminal signal is emitted. -/
def terminalEvent (files : List String) (cidx : Option Nat) : Event :=
  if files.length = 0 then Event.finishedAll
  else if cancelledAt cidx files.length then Event.cancelledSig
  else Event.finishedAll

/-- The full signal stream the shell observes when a cancellation request
arrives just before check point c of a run over a non-empty file list:
ImageGeneratorThread.cancel (lines 30-32) sets the flag and itself emits
the cancelled signal at request time (line 32), so the observed stream is
run's events emitted before the request — the traces of the first c files —
then cancel()'s own cancelled signal, then the events run emits after the
request: the loop continued from check point c over the remaining files
with the flag now set.  observedEvents_insert below proves the part before
and after the inserted signal is exactly run's own emission stream. -/
def observedEvents (env : Env) (files : List String) (pm : PromptMap)
    (outF : String) (c : Nat) : List Event :=
  (catAll (tracesFrom env pm outF files.length 0 (files.take c))).events
    ++ Event.cancelledSig
      :: (runLoop env pm outF files.length (some c) c (files.drop c)).events

/-! ## Basic lemmas about the embedding -/

theorem FileResult.cat_events (a b : FileResult) :
    (FileResult.cat a b).events = a.events ++ b.events := rfl

theorem FileResult.cat_requests (a b : FileResult) :
    (FileResult.cat a b).requests = a.requests ++ b.requests := rfl

theorem FileResult.cat_writes (a b : FileResult) :
    (FileResult.cat a b).writes = a.writes ++ b.writes := rfl

theorem FileResult.empty_cat (b : FileResult) : FileResult.cat FileResult.empty b = b := by
  cases b; simp [FileResult.cat, FileResult.empty]

theorem FileResult.cat_assoc (a b c : FileResult) :
    FileResult.cat (FileResult.cat a b) c = FileResult.cat a (FileResult.cat b c) := by
  simp [FileResult.cat]

theorem isFileEvent_not_terminal (e : Event) (h : isFileEvent e = true) :
    isTerminal e = false := by
  cases e <;> simp_all [isFileEvent, isTerminal]

/-- The try/except body emits exactly one event, a status or error notice. -/
theorem fileAttempt_shape (env : Env) (pm : PromptMap) (outF f : String) :
    ∃ e, (fileAttempt env pm outF f).events = [e] ∧ isFileEvent e = true := by
  simp only [fileAttempt]
  repeat' split
  all_goals exact ⟨_, rfl, rfl⟩

/-- Every write of the try/except body targets a joined path under the
output folder. -/
theorem fileAttempt_writes (env : Env) (pm : PromptMap) (outF f : String) :
    ∀ w ∈ (fileAttempt env pm outF f).writes, ∃ b, w.1 = osJoin outF b := by
  simp only [fileAttempt]
  repeat' split
  all_goals intro w hw
  all_goals simp_all

theorem fileTrace_eq_of_skip (env : Env) (pm : PromptMap) (outF : String)
    (total i : Nat) (f : String) (h : resolvePrompt pm f = "") :
    fileTrace env pm outF total i f
      = ⟨[Event.status ("Skipping " ++ f ++ ": No prompt provided.")], [], []⟩ := by
  simp [fileTrace, fileAttempt, h]

theorem fileTrace_eq_of_not_skip (env : Env) (pm : PromptMap) (outF : String)
    (total i : Nat) (f : String) (h : resolvePrompt pm f ≠ "") :
    fileTrace env pm outF total i f
      = { fileAttempt env pm outF f with
          events := (fileAttempt env pm outF f).events
            ++ [Event.progress (progressValue i total)] } := by
  simp [fileTrace, h]

theorem fileTrace_writes (env : Env) (pm : PromptMap) (outF : String)
    (total i : Nat) (f : String) :
    (fileTrace env pm outF total i f).writes = (fileAttempt env pm outF f).writes := by
  by_cases h : resolvePrompt pm f = ""
  · rw [fileTrace_eq_of_skip env pm outF total i f h]
    rw [show fileAttempt env pm outF f
          = ⟨[Event.status ("Skipping " ++ f ++ ": No prompt provided.")], [], []⟩
        from by simp [fileAttempt, h]]
  · rw [fileTrace_eq_of_not_skip env pm outF total i f h]

theorem fileTrace_no_terminal (env : Env) (pm : PromptMap) (outF : String)
    (total i : Nat) (f : String) :
    ∀ e ∈ (fileTrace env pm outF total i f).events, isTerminal e = false := by
  obtain ⟨e, he, hfe⟩ := fileAttempt_shape env pm outF f
  by_cases h : resolvePrompt pm f = ""
  · rw [fileTrace_eq_of_skip env pm outF total i f h]
    intro x hx
    simp at hx
    subst hx
    rfl
  · rw [fileTrace_eq_of_not_skip env pm outF total i f h]
    intro x hx
    simp [he] at hx
    rcases hx with hx | hx
    · subst hx; exact isFileEvent_not_terminal _ hfe
    · subst hx; rfl

/-- Each processed file contributes exactly one status-or-error notice. -/
theorem fileTrace_one_file_event (env : Env) (pm : PromptMap) (outF : String)
    (total i : Nat) (f : String) :
    ((fileTrace env pm outF total i f).events.filter isFileEvent).length = 1 := by
  obtain ⟨e, he, hfe⟩ := fileAttempt_shape env pm outF f
  by_cases h : resolvePrompt pm f = ""
  · rw [fileTrace_eq_of_skip env pm outF total i f h]
    rfl
  · rw [fileTrace_eq_of_not_skip env pm outF total i f h]
    simp [he, List.filter, hfe]
    rfl

theorem cancelledAt_mono {cidx : Option Nat} {i j : Nat}
    (h : cancelledAt cidx i = true) (hij : i ≤ j) : cancelledAt cidx j = true := by
  cases cidx with
  | none => simp [cancelledAt] at h
  | some c => simp [cancelledAt] at h ⊢; omega

/-- The run loop always ends in exactly one terminal signal, whose kind
depends only on whether the cancellation flag is set by the final check. -/
theorem runLoop_last (env : Env) (pm : PromptMap) (outF : String)
    (total : Nat) (cidx : Option Nat) :
    ∀ (L : List String) (i : Nat), ∃ body,
      (runLoop env pm outF total cidx i L).events
        = body ++ [if cancelledAt cidx (i + L.length) then Event.cancelledSig
                   else Event.finishedAll]
      ∧ ∀ e ∈ body, isTerminal e = false := by
  intro L
  induction L with
  | nil =>
      intro i
      by_cases h : cancelledAt cidx i
      · exact ⟨[Event.status "Generation cancelled."], by simp [runLoop, h, cancelResult], by
          intro e he; simp at he; subst he; rfl⟩
      · exact ⟨[], by simp [runLoop, h], by intro e he; simp at he⟩
  | cons f rest ih =>
      intro i
      by_cases h : cancelledAt cidx i
      · have hmono : cancelledAt cidx (i + (rest.length + 1)) = true :=
          cancelledAt_mono h (Nat.le_add_right _ _)
        exact ⟨[Event.status "Generation cancelled."],
          by simp [runLoop, h, hmono, cancelResult], by
          intro e he; simp at he; subst he; rfl⟩
      · obtain ⟨body, hb, hnt⟩ := ih (i + 1)
        refine ⟨(fileTrace env pm outF total i f).events ++ body, ?_, ?_⟩
        · have : i + 1 + rest.length = i + (f :: rest).length := by simp; omega
          rw [this] at hb
          simp [runLoop, h, FileResult.cat_events, hb]
        · intro e he
          rcases List.mem_append.mp he with he | he
          · exact fileTrace_no_terminal env pm outF total i f e he
          · exact hnt e he

/-- Decomposition of an uncancelled run loop into per-file traces followed
by the finished signal. -/
theorem runLoop_none_decomp (env : Env) (pm : PromptMap) (outF : String) (total : Nat) :
    ∀ (L : List String) (i : Nat),
      runLoop env pm outF total none i L
        = FileResult.cat (catAll (tracesFrom env pm outF total i L))
            ⟨[Event.finishedAll], [], []⟩ := by
  intro L
  induction L with
  | nil =>
      intro i
      simp [runLoop, cancelledAt, tracesFrom, catAll, FileResult.empty_cat]
  | cons f rest ih =>
      intro i
      simp only [runLoop, cancelledAt]
      rw [ih (i + 1)]
      simp [tracesFrom, catAll, FileResult.cat_assoc]

/-- Decomposition of a run loop cancelled at check point c: the first
c - i files are processed, the rest contribute nothing, and the
cancellation status plus terminal signal close the trace. -/
theorem runLoop_cancel_decomp (env : Env) (pm : PromptMap) (outF : String)
    (total c : Nat) :
    ∀ (L : List String) (i : Nat), i ≤ c → c ≤ i + L.length →
      runLoop env pm outF total (some c) i L
        = FileResult.cat (catAll (tracesFrom env pm outF total i (L.take (c - i))))
            cancelResult := by
  intro L
  induction L with
  | nil =>
      intro i h1 h2
      have hci : c = i := by simp at h2; omega
      subst hci
      simp [runLoop, cancelledAt, tracesFrom, catAll, FileResult.empty_cat]
  | cons f rest ih =>
      intro i h1 h2
      by_cases h : c = i
      · subst h
        simp [runLoop, cancelledAt, tracesFrom, catAll, FileResult.empty_cat]
      · have hlt : i < c := by omega
        have hca : cancelledAt (some c) i = false := by
          simp [cancelledAt]; omega
        have htake : c - i = (c - (i + 1)) + 1 := by omega
        rw [runLoop, hca, htake]
        simp only [List.take_succ_cons, tracesFrom, catAll, Bool.false_eq_true,
          if_false]
        rw [ih (i + 1) (by omega) (by simp at h2 ⊢; omega)]
        rw [FileResult.cat_assoc]

/-! ## Progress-value and trace lemmas -/

theorem progressValues_append (a b : List Event) :
    progressValues (a ++ b) = progressValues a ++ progressValues b := by
  simp [progressValues, List.filterMap_append]

theorem progressValues_file_event (e : Event) (h : isFileEvent e = true) :
    progressValues [e] = [] := by
  cases e <;> simp_all [progressValues, isFileEvent]

theorem fileTrace_progressValues (env : Env) (pm : PromptMap) (outF : String)
    (total i : Nat) (f : String) (h : resolvePrompt pm f ≠ "") :
    progressValues (fileTrace env pm outF total i f).events = [progressValue i total] := by
  obtain ⟨e, he, hfe⟩ := fileAttempt_shape env pm outF f
  rw [fileTrace_eq_of_not_skip env pm outF total i f h]
  show progressValues ((fileAttempt env pm outF f).events
    ++ [Event.progress (progressValue i total)]) = _
  rw [he, progressValues_append, progressValues_file_event e hfe]
  rfl

theorem run_pos (env : Env) (files : List String) (pm : PromptMap)
    (outF : String) (cidx : Option Nat) (h : files.length ≠ 0) :
    run env files pm outF cidx = runLoop env pm outF files.length cidx 0 files := by
  simp [run, h]

theorem tracesFrom_length (env : Env) (pm : PromptMap) (outF : String) (total : Nat) :
    ∀ (L : List String) (i : Nat), (tracesFrom env pm outF total i L).length = L.length := by
  intro L
  induction L with
  | nil => intro i; rfl
  | cons f rest ih => intro i; simp [tracesFrom, ih]

theorem tracesFrom_mem_one_file_event (env : Env) (pm : PromptMap) (outF : String)
    (total : Nat) :
    ∀ (L : List String) (i : Nat), ∀ r ∈ tracesFrom env pm outF total i L,
      (r.events.filter isFileEvent).length = 1 := by
  intro L
  induction L with
  | nil => intro i r hr; simp [tracesFrom] at hr
  | cons f rest ih =>
      intro i r hr
      simp only [tracesFrom, List.mem_cons] at hr
      rcases hr with hr | hr
      · subst hr; exact fileTrace_one_file_event env pm outF total i f
      · exact ih (i + 1) r hr

theorem catAll_progressValues_of_no_skip (env : Env) (pm : PromptMap) (outF : String)
    (total : Nat) :
    ∀ (L : List String) (i : Nat), (∀ f ∈ L, resolvePrompt pm f ≠ "") →
      progressValues (catAll (tracesFrom env pm outF total i L)).events
        = (List.range L.length).map (fun j => progressValue (i + j) total) := by
  intro L
  induction L with
  | nil => intro i _; rfl
  | cons f rest ih =>
      intro i hns
      simp only [tracesFrom, catAll, FileResult.cat_events]
      rw [progressValues_append,
        fileTrace_progressValues env pm outF total i f (hns f (by simp)),
        ih (i + 1) (fun g hg => hns g (by simp [hg]))]
      rw [List.length_cons, List.range_succ_eq_map, List.map_cons, List.map_map]
      simp only [Nat.add_zero, List.singleton_append]
      refine congrArg (List.cons (progressValue i total)) ?_
      apply List.map_congr_left
      intro a _
      simp only [Function.comp, progressValue]
      have : i + 1 + a = i + (a + 1) := by omega
      rw [this]

theorem runLoop_writes (env : Env) (pm : PromptMap) (outF : String)
    (total : Nat) (cidx : Option Nat) :
    ∀ (L : List String) (i : Nat), ∀ w ∈ (runLoop env pm outF total cidx i L).writes,
      ∃ b, w.1 = osJoin outF b := by
  intro L
  induction L with
  | nil =>
      intro i w hw
      by_cases h : cancelledAt cidx i <;> simp [runLoop, h, cancelResult] at hw
  | cons f rest ih =>
      intro i w hw
      by_cases h : cancelledAt cidx i
      · simp [runLoop, h, cancelResult] at hw
      · simp only [runLoop, h, Bool.false_eq_true, if_false, FileResult.cat_writes] at hw
        rcases List.mem_append.mp hw with hw | hw
        · rw [fileTrace_writes] at hw
          exact fileAttempt_writes env pm outF f w hw
        · exact ih (i + 1) w hw

theorem runLoop_cancel_now (env : Env) (pm : PromptMap) (outF : String)
    (total : Nat) (cidx : Option Nat) (L : List String) (i : Nat)
    (h : cancelledAt cidx i = true) :
    runLoop env pm outF total cidx i L = cancelResult := by
  cases L <;> simp [runLoop, h]

/-- The observed stream of a cancelled run is run's own emission stream
with cancel()'s request-time cancelled signal inserted at the request
point: before the insertion both agree on the traces of the first c files,
and after it run contributes exactly its cancellation status and its own
cancelled terminal. -/
theorem observedEvents_insert (env : Env) (pm : PromptMap) (outF : String)
    (files : List String) (c : Nat) (hc : c ≤ files.length)
    (hne : files.length ≠ 0) :
    (run env files pm outF (some c)).events
        = (catAll (tracesFrom env pm outF files.length 0 (files.take c))).events
          ++ (runLoop env pm outF files.length (some c) c (files.drop c)).events
      ∧ observedEvents env files pm outF c
        = (catAll (tracesFrom env pm outF files.length 0 (files.take c))).events
          ++ Event.cancelledSig
            :: (runLoop env pm outF files.length (some c) c (files.drop c)).events
      ∧ runLoop env pm outF files.length (some c) c (files.drop c) = cancelResult := by
  have hnow : runLoop env pm outF files.length (some c) c (files.drop c) = cancelResult :=
    runLoop_cancel_now env pm outF files.length (some c) (files.drop c) c
      (by simp [cancelledAt])
  refine ⟨?_, rfl, hnow⟩
  rw [run_pos env files pm outF (some c) hne]
  rw [runLoop_cancel_decomp env pm outF files.length c files 0 (by omega) (by omega)]
  rw [hnow, FileResult.cat_events]
  simp

theorem strData_append (a b : String) : (a ++ b).data = a.data ++ b.data := rfl

theorem osJoin_output_ne_source (src f b : String) (hf : strHasSlash f = false) :
    osJoin (outputFolderOf src) b ≠ osJoin src f := by
  intro h
  have hd := congrArg String.data h
  simp only [osJoin, outputFolderOf, strData_append,
    show ("/" : String).data = ['/'] from rfl, List.append_assoc,
    List.cons_append, List.nil_append] at hd
  have heq := List.append_cancel_left hd
  simp only [List.cons.injEq, true_and] at heq
  have hmem : '/' ∈ f.data := by
    rw [← heq]
    simp
  have htrue : strHasSlash f = true := by
    simp only [strHasSlash, List.any_eq_true]
    exact ⟨'/', hmem, by simp⟩
  rw [htrue] at hf
  exact Bool.noConfusion hf

/-! ## Claim theorems -/

/-- C1 counterexample: cancel() itself emits the cancelled terminal signal
at request time (line 32), so the full observed stream of a run over
a.png, b.png, c.png with cancellation requested before file 2 contains the
cancelled terminal signal twice — and the first terminal event, at
position 2, is not the last of the five events — refuting that exactly one
terminal event is emitted per run and that it is the last event. -/
theorem cancel_double_terminal_counterexample :
    observedEvents envAllOk files3 pmGlobal "out" 1
        = [Event.status "Generated a.png", Event.progress 33,
           Event.cancelledSig,
           Event.status "Generation cancelled.", Event.cancelledSig]
      ∧ ((observedEvents envAllOk files3 pmGlobal "out" 1).filter isTerminal).length = 2
      ∧ (observedEvents envAllOk files3 pmGlobal "out" 1).get? 2 = some Event.cancelledSig
      ∧ (observedEvents envAllOk files3 pmGlobal "out" 1).length = 5 :=
  ⟨rfl, rfl, rfl, rfl⟩

/-- C1 amended: scoped to run()'s own emission stream — ImageGeneratorThread.run
emits exactly one terminal event (finished_all or cancelled), and it is the
last event run emits; in particular, when cancellation is requested before
file k (1-indexed, k within the file list), run's events are exactly the
concatenated traces of the first k - 1 files — each contributing exactly
one status-or-error notice — with no events for file k onward, closed by
the cancellation status and run's single cancelled terminal signal.  The
cancel() method itself (line 32) additionally emits a cancelled signal at
request time, outside this stream, as the counterexample above exhibits. -/
theorem run_single_terminal_and_cancellation_shape (env : Env) (pm : PromptMap)
    (outF : String) (files : List String) (cidx : Option Nat) :
    (∃ body t, (run env files pm outF cidx).events = body ++ [t]
        ∧ isTerminal t = true ∧ ∀ e ∈ body, isTerminal e = false)
      ∧ ∀ k : Nat, 1 ≤ k → k ≤ files.length → cidx = some (k - 1) →
          (run env files pm outF cidx).events
              = (catAll (tracesFrom env pm outF files.length 0 (files.take (k - 1)))).events
                ++ [Event.status "Generation cancelled.", Event.cancelledSig]
            ∧ (tracesFrom env pm outF files.length 0 (files.take (k - 1))).length = k - 1
            ∧ ∀ r ∈ tracesFrom env pm outF files.length 0 (files.take (k - 1)),
                (r.events.filter isFileEvent).length = 1 := by
  constructor
  · by_cases h : files.length = 0
    · refine ⟨[Event.status "No image files found."], Event.finishedAll, by simp [run, h],
        rfl, ?_⟩
      intro e he
      simp at he
      subst he
      rfl
    · rw [run_pos env files pm outF cidx h]
      obtain ⟨body, hb, hnt⟩ := runLoop_last env pm outF files.length cidx files 0
      refine ⟨body, _, hb, ?_, hnt⟩
      split <;> rfl
  · intro k hk1 hk2 hcidx
    subst hcidx
    have hne : files.length ≠ 0 := by omega
    rw [run_pos env files pm outF _ hne]
    rw [runLoop_cancel_decomp env pm outF files.length (k - 1) files 0 (by omega)
      (by omega)]
    refine ⟨by simp [FileResult.cat_events, cancelResult], ?_, ?_⟩
    · rw [tracesFrom_length]
      simp
      omega
    · intro r hr
      exact tracesFrom_mem_one_file_event env pm outF files.length _ 0 r hr

/-- C1 witness: a three-file run with the global prompt, cancellation
requested before file 2. -/
theorem run_single_terminal_and_cancellation_shape_witness :
    (run envAllOk files3 pmGlobal "out" (some 1)).events
        = (catAll (tracesFrom envAllOk pmGlobal "out" files3.length 0 (files3.take 1))).events
          ++ [Event.status "Generation cancelled.", Event.cancelledSig]
      ∧ (tracesFrom envAllOk pmGlobal "out" files3.length 0 (files3.take 1)).length = 1
      ∧ ∀ r ∈ tracesFrom envAllOk pmGlobal "out" files3.length 0 (files3.take 1),
          (r.events.filter isFileEvent).length = 1 := by
  have h := (run_single_terminal_and_cancellation_shape envAllOk pmGlobal "out" files3
    (some 1)).2 2 (by decide) (by decide) rfl
  exact h

/-- C2 counterexample: a run over the single file x.png with an empty
global prompt emits the skip status and the terminal event but no progress
event at all — the claim that progress still advances after a skip is false
(the continue on line 60 of src/main.py jumps past the progress emission of
line 84). -/
theorem skip_progress_counterexample :
    (run envAllOk ["x.png"] pmEmptyGlobal "out" none).events
        = [Event.status "Skipping x.png: No prompt provided.", Event.finishedAll]
      ∧ (run envAllOk ["x.png"] pmEmptyGlobal "out" none).requests = []
      ∧ progressValues (run envAllOk ["x.png"] pmEmptyGlobal "out" none).events = [] :=
  ⟨rfl, rfl, rfl⟩

/-- C2 amended: for every file whose resolved prompt is the empty string,
no HTTP request is issued and exactly one skip status event is emitted, but
no progress event is emitted for that file — the loop moves to the next
file without advancing progress. -/
theorem skip_no_request_no_progress (env : Env) (pm : PromptMap) (outF : String)
    (total i : Nat) (f : String) (h : resolvePrompt pm f = "") :
    fileTrace env pm outF total i f
        = ⟨[Event.status ("Skipping " ++ f ++ ": No prompt provided.")], [], []⟩
      ∧ (fileTrace env pm outF total i f).requests = []
      ∧ progressValues (fileTrace env pm outF total i f).events = [] := by
  have heq := fileTrace_eq_of_skip env pm outF total i f h
  refine ⟨heq, by rw [heq], by rw [heq]; rfl⟩

/-- C2 witness: the file x.png under the empty global prompt. -/
theorem skip_no_request_no_progress_witness :
    resolvePrompt pmEmptyGlobal "x.png" = ""
      ∧ fileTrace envAllOk pmEmptyGlobal "out" 1 0 "x.png"
          = ⟨[Event.status ("Skipping " ++ "x.png" ++ ": No prompt provided.")], [], []⟩ :=
  ⟨by decide,
   (skip_no_request_no_progress envAllOk pmEmptyGlobal "out" 1 0 "x.png" (by decide)).1⟩

/-- C3 counterexample: an uncancelled three-file run emits the progress
sequence 33, 66, 100 — int((i + 1) / total * 100) truncates — while the
claimed arithmetic rounding of the same quotients is 33, 67, 100. -/
theorem progress_rounding_counterexample :
    progressValues (run envAllOk files3 pmGlobal "out" none).events = [33, 66, 100]
      ∧ (List.range 3).map (fun i => specRound ((i + 1) * 100) 3) = [33, 67, 100]
      ∧ ([33, 66, 100] : List Nat) ≠ [33, 67, 100] :=
  ⟨rfl, rfl, by decide⟩

/-- C3 amended: for every uncancelled run over N files, 1 ≤ N ≤ 49, in
which no file is skipped, the emitted progress values are exactly
floor(1·100/N), floor(2·100/N), ..., floor(N·100/N) = 100 — truncation, not
arithmetic rounding (the bound N ≤ 49 keeps the exact floor equal to the
binary64 truncation the program computes; see progressValue). -/
theorem uncancelled_progress_sequence (env : Env) (pm : PromptMap) (outF : String)
    (files : List String) (h1 : 1 ≤ files.length) (h49 : files.length ≤ 49)
    (hns : ∀ f ∈ files, resolvePrompt pm f ≠ "") :
    progressValues (run env files pm outF none).events
        = (List.range files.length).map (fun i => (i + 1) * 100 / files.length)
      ∧ files.length * 100 / files.length = 100 := by
  constructor
  · rw [run_pos env files pm outF none (by omega)]
    rw [runLoop_none_decomp env pm outF files.length files 0]
    rw [FileResult.cat_events, progressValues_append]
    rw [catAll_progressValues_of_no_skip env pm outF files.length files 0 hns]
    simp [progressValues, progressValue]
  · exact Nat.mul_div_cancel_left 100 (by omega)

/-- C3 amended witness: the three-file run with the global prompt. -/
theorem uncancelled_progress_sequence_witness :
    progressValues (run envAllOk files3 pmGlobal "out" none).events
        = (List.range files3.length).map (fun i => (i + 1) * 100 / files3.length) :=
  (uncancelled_progress_sequence envAllOk pmGlobal "out" files3 (by decide) (by decide)
    (by decide)).1

/-- C4: a raised exception at any fault point of a file's processing — the
HTTP request, the JPEG decode/re-encode, or the file write — produces
exactly one error event carrying the filename and the error text (plus the
progress event of line 84) and nothing else for that file; the loop then
continues with the next file (the step equation); and the run's terminal
event is a function of the file list and the cancellation point alone —
never of any per-file outcome. -/
theorem per_file_exceptions_never_fatal (env : Env) (pm : PromptMap) (outF : String) :
    (∀ total i f e, resolvePrompt pm f ≠ "" →
        env.httpGet (urlOf (resolvePrompt pm f)) = Except.error e →
        fileTrace env pm outF total i f
          = ⟨[Event.error ("Error generating " ++ f ++ ": " ++ e),
              Event.progress (progressValue i total)],
             [urlOf (resolvePrompt pm f)], []⟩)
      ∧ (∀ total i f content e, resolvePrompt pm f ≠ "" →
          env.httpGet (urlOf (resolvePrompt pm f)) = Except.ok (200, content) →
          (pyLower (splitext f).2 = ".jpg" ∨ pyLower (splitext f).2 = ".jpeg") →
          env.jpegSave content 95 (osJoin outF ((splitext f).1 ++ ".jpg"))
              = Except.error e →
          fileTrace env pm outF total i f
            = ⟨[Event.error ("Error generating " ++ f ++ ": " ++ e),
                Event.progress (progressValue i total)],
               [urlOf (resolvePrompt pm f)], []⟩)
      ∧ (∀ total i f content e, resolvePrompt pm f ≠ "" →
          env.httpGet (urlOf (resolvePrompt pm f)) = Except.ok (200, content) →
          ¬(pyLower (splitext f).2 = ".jpg" ∨ pyLower (splitext f).2 = ".jpeg") →
          env.writeFile (osJoin outF ((splitext f).1 ++ ".png")) content
              = Except.error e →
          fileTrace env pm outF total i f
            = ⟨[Event.error ("Error generating " ++ f ++ ": " ++ e),
                Event.progress (progressValue i total)],
               [urlOf (resolvePrompt pm f)], []⟩)
      ∧ (∀ total cidx i f rest, cancelledAt cidx i = false →
          runLoop env pm outF total cidx i (f :: rest)
            = FileResult.cat (fileTrace env pm outF total i f)
                (runLoop env pm outF total cidx (i + 1) rest))
      ∧ ∀ files cidx, (run env files pm outF cidx).events.getLast?
          = some (terminalEvent files cidx) := by
  refine ⟨?_, ?_, ?_, ?_, ?_⟩
  · intro total i f e hp he
    rw [fileTrace_eq_of_not_skip env pm outF total i f hp]
    simp [fileAttempt, hp, he]
  · intro total i f content e hp hg hext hjs
    rw [fileTrace_eq_of_not_skip env pm outF total i f hp]
    rcases hext with h | h <;> simp [fileAttempt, hp, hg, h, hjs]
  · intro total i f content e hp hg hext hw
    rw [fileTrace_eq_of_not_skip env pm outF total i f hp]
    simp [fileAttempt, hp, hg, hext, hw]
  · intro total cidx i f rest hnc
    simp [runLoop, hnc]
  · intro files cidx
    by_cases h : files.length = 0
    · simp [run, h, terminalEvent]
    · rw [run_pos env files pm outF cidx h]
      obtain ⟨body, hb, _⟩ := runLoop_last env pm outF files.length cidx files 0
      rw [hb, List.getLast?_concat]
      simp [terminalEvent, h]

/-- C4 witness: a run whose only file's GET raises; the error event is
emitted, progress follows, and the run still finishes with finished_all. -/
theorem per_file_exceptions_never_fatal_witness :
    fileTrace envHttpFail pmGlobal "out" 1 0 "a.png"
        = ⟨[Event.error ("Error generating " ++ "a.png" ++ ": " ++ "timeout"),
            Event.progress (progressValue 0 1)],
           [urlOf (resolvePrompt pmGlobal "a.png")], []⟩
      ∧ (run envHttpFail ["a.png"] pmGlobal "out" none).events.getLast?
          = some (terminalEvent ["a.png"] none) := by
  refine ⟨?_, ?_⟩
  · exact (per_file_exceptions_never_fatal envHttpFail pmGlobal "out").1 1 0 "a.png"
      "timeout" (by decide) rfl
  · exact (per_file_exceptions_never_fatal envHttpFail pmGlobal "out").2.2.2.2
      ["a.png"] none

/-- C5: a present per-file entry is used verbatim with no suffix; an absent
entry with a non-empty global entry resolves to the global text plus the
unique-variation suffix naming the file; an absent entry with an empty or
absent global entry resolves to the empty prompt and the file is skipped
with a status notice, not errored. -/
theorem resolve_prompt_rule (pm : PromptMap) (f : String) :
    (∀ p, pm f = some p → resolvePrompt pm f = p)
      ∧ (pm f = none → (pm "global").getD "" ≠ "" →
          resolvePrompt pm f
            = (pm "global").getD "" ++ " - unique variation for " ++ f)
      ∧ (pm f = none → (pm "global").getD "" = "" →
          resolvePrompt pm f = ""
            ∧ ∀ env outF total i, fileTrace env pm outF total i f
                = ⟨[Event.status ("Skipping " ++ f ++ ": No prompt provided.")], [], []⟩) := by
  refine ⟨?_, ?_, ?_⟩
  · intro p hp
    simp [resolvePrompt, hp]
  · intro hnone hg
    simp [resolvePrompt, hnone, hg]
  · intro hnone hg
    have hr : resolvePrompt pm f = "" := by simp [resolvePrompt, hnone, hg]
    exact ⟨hr, fun env outF total i => fileTrace_eq_of_skip env pm outF total i f hr⟩

/-- C5 witness: a verbatim per-file entry, a suffixed global fallback, and
an empty-global skip. -/
theorem resolve_prompt_rule_witness :
    resolvePrompt pmCustom "a.png" = "castle"
      ∧ resolvePrompt pmGlobal "b.png" = "sunset" ++ " - unique variation for " ++ "b.png"
      ∧ resolvePrompt pmEmptyGlobal "x.png" = "" := by
  refine ⟨?_, ?_, ?_⟩
  · exact (resolve_prompt_rule pmCustom "a.png").1 "castle" rfl
  · exact (resolve_prompt_rule pmGlobal "b.png").2.1 rfl (by decide)
  · exact ((resolve_prompt_rule pmEmptyGlobal "x.png").2.2 rfl (by decide)).1

/-- C6: on HTTP 200, a file with a case-insensitive .jpg or .jpeg extension
has the response bytes decoded and re-encoded as JPEG at quality 95 into
base.jpg in the output folder, any other file has the response bytes
written unchanged into base.png in the output folder, and exactly one
output file is written either way. -/
theorem success_write_rule (env : Env) (pm : PromptMap) (outF : String)
    (total i : Nat) (f : String) (content : List Nat)
    (hp : resolvePrompt pm f ≠ "")
    (hg : env.httpGet (urlOf (resolvePrompt pm f)) = Except.ok (200, content)) :
    ((pyLower (splitext f).2 = ".jpg" ∨ pyLower (splitext f).2 = ".jpeg") →
        ∀ jb, env.jpegSave content 95 (osJoin outF ((splitext f).1 ++ ".jpg"))
            = Except.ok jb →
          fileTrace env pm outF total i f
            = ⟨[Event.status ("Generated " ++ (splitext f).1 ++ ".jpg"),
                Event.progress (progressValue i total)],
               [urlOf (resolvePrompt pm f)],
               [(osJoin outF ((splitext f).1 ++ ".jpg"), jb)]⟩)
      ∧ (¬(pyLower (splitext f).2 = ".jpg" ∨ pyLower (splitext f).2 = ".jpeg") →
          env.writeFile (osJoin outF ((splitext f).1 ++ ".png")) content
              = Except.ok () →
          fileTrace env pm outF total i f
            = ⟨[Event.status ("Generated " ++ (splitext f).1 ++ ".png"),
                Event.progress (progressValue i total)],
               [urlOf (resolvePrompt pm f)],
               [(osJoin outF ((splitext f).1 ++ ".png"), content)]⟩) := by
  constructor
  · intro hext jb hjs
    rw [fileTrace_eq_of_not_skip env pm outF total i f hp]
    rcases hext with h | h <;> simp [fileAttempt, hp, hg, h, hjs]
  · intro hext hwr
    rw [fileTrace_eq_of_not_skip env pm outF total i f hp]
    simp [fileAttempt, hp, hg, hext, hwr]

/-- C6 witness: a.JPG is re-encoded (envAllOk appends 9 as the re-encode)
into out/a.jpg; b.png is written raw into out/b.png. -/
theorem success_write_rule_witness :
    fileTrace envAllOk pmGlobal "out" 2 0 "a.JPG"
        = ⟨[Event.status ("Generated " ++ (splitext "a.JPG").1 ++ ".jpg"),
            Event.progress (progressValue 0 2)],
           [urlOf (resolvePrompt pmGlobal "a.JPG")],
           [(osJoin "out" ((splitext "a.JPG").1 ++ ".jpg"), [1, 2, 3, 9])]⟩
      ∧ fileTrace envAllOk pmGlobal "out" 2 1 "b.png"
          = ⟨[Event.status ("Generated " ++ (splitext "b.png").1 ++ ".png"),
              Event.progress (progressValue 1 2)],
             [urlOf (resolvePrompt pmGlobal "b.png")],
             [(osJoin "out" ((splitext "b.png").1 ++ ".png"), [1, 2, 3])]⟩ := by
  constructor
  · exact (success_write_rule envAllOk pmGlobal "out" 2 0 "a.JPG" [1, 2, 3] (by decide)
      rfl).1 (by decide) [1, 2, 3, 9] rfl
  · exact (success_write_rule envAllOk pmGlobal "out" 2 1 "b.png" [1, 2, 3] (by decide)
      rfl).2 (by decide) rfl

/-- C7 counterexample: when the directory listing raises (folder missing or
unreadable), get_image_files propagates the exception — it does not return
an empty sequence (os.listdir on line 36 is called unguarded; the empty-
sequence guard lives in the shell's load_files, not in the Enumerator). -/
theorem enumerator_missing_folder_counterexample :
    get_image_files (Except.error "No such file or directory") [".png", ".jpg", ".jpeg"]
        = Except.error "No such file or directory"
      ∧ get_image_files (Except.error "No such file or directory") [".png", ".jpg", ".jpeg"]
          ≠ Except.ok [] :=
  ⟨rfl, fun h => Except.noConfusion h⟩

/-- C7 amended: when the listing raises, the exception propagates out of
the Enumerator; when it succeeds, the Enumerator returns exactly the
entries whose lowercased name ends with one of the accepted extensions
taken verbatim, in listing order (a sublist, no recursion); matching is
case-insensitive in the filename only, so whenever every accepted extension
is already lowercase it coincides with fully case-insensitive matching. -/
theorem enumerator_rule (exts : List String) :
    (∀ e, get_image_files (Except.error e) exts = Except.error e)
      ∧ (∀ names, get_image_files (Except.ok names) exts
            = Except.ok (names.filter (matchesExtensions exts))
          ∧ (names.filter (matchesExtensions exts)).Sublist names
          ∧ ∀ fn, fn ∈ names.filter (matchesExtensions exts)
              ↔ fn ∈ names ∧ matchesExtensions exts fn = true)
      ∧ ((∀ x ∈ exts, pyLower x = x) → ∀ fn,
          matchesExtensions exts fn
            = exts.any (fun x => (pyLower fn).endsWith (pyLower x))) := by
  refine ⟨fun e => rfl,
    fun names => ⟨rfl, List.filter_sublist _, fun fn => List.mem_filter⟩, ?_⟩
  intro hlow fn
  induction exts with
  | nil => rfl
  | cons x xs ih =>
      simp only [matchesExtensions, List.any_cons] at ih ⊢
      rw [hlow x (by simp), ih (fun y hy => hlow y (by simp [hy]))]

/-- C7 amended witness: the app's extension set is lowercase; A.PNG is
matched case-insensitively, b.txt is rejected. -/
theorem enumerator_rule_witness :
    get_image_files (Except.ok ["A.PNG", "b.txt", "c.jpg"]) [".png", ".jpg", ".jpeg"]
        = Except.ok (["A.PNG", "b.txt", "c.jpg"].filter
            (matchesExtensions [".png", ".jpg", ".jpeg"]))
      ∧ matchesExtensions [".png", ".jpg", ".jpeg"] "A.PNG"
          = [".png", ".jpg", ".jpeg"].any (fun x => (pyLower "A.PNG").endsWith (pyLower x)) := by
  refine ⟨((enumerator_rule [".png", ".jpg", ".jpeg"]).2.1 ["A.PNG", "b.txt", "c.jpg"]).1, ?_⟩
  exact (enumerator_rule [".png", ".jpg", ".jpeg"]).2.2 (by decide) "A.PNG"

/-- C8: the run-start path computes the output folder as the fixed
subdirectory generated_images of the source folder and creates it if
absent, failing neither when it is missing nor when it already exists and
preserving every existing directory (the makedirs call sits on line 401 of
start_generation, immediately before the worker is constructed). -/
theorem output_folder_setup (source_folder : String) (dirs : List String) :
    (startGenerationSetup source_folder dirs).1
        = source_folder ++ "/" ++ "generated_images"
      ∧ (startGenerationSetup source_folder dirs).1 ∈ (startGenerationSetup source_folder dirs).2
      ∧ ∀ d ∈ dirs, d ∈ (startGenerationSetup source_folder dirs).2 := by
  refine ⟨rfl, ?_, ?_⟩
  · by_cases h : outputFolderOf source_folder ∈ dirs <;>
      simp [startGenerationSetup, makedirs, h]
  · intro d hd
    by_cases h : outputFolderOf source_folder ∈ dirs <;>
      simp [startGenerationSetup, makedirs, h, hd]

/-- C8 witness: a source folder whose output subfolder does not exist yet. -/
theorem output_folder_setup_witness :
    (startGenerationSetup "src" ["src"]).1 = "src" ++ "/" ++ "generated_images"
      ∧ (startGenerationSetup "src" ["src"]).1 ∈ (startGenerationSetup "src" ["src"]).2
      ∧ "src" ∈ (startGenerationSetup "src" ["src"]).2 := by
  obtain ⟨h1, h2, h3⟩ := output_folder_setup "src" ["src"]
  exact ⟨h1, h2, h3 "src" (by decide)⟩

/-- C9: a per-file entry that is present but empty resolves to the empty
prompt and the file is skipped, regardless of the global entry — no
fallback to the global prompt happens for a present-but-empty entry. -/
theorem empty_per_file_entry_skips (pm : PromptMap) (f : String) (h : pm f = some "") :
    resolvePrompt pm f = ""
      ∧ ∀ env outF total i, fileTrace env pm outF total i f
          = ⟨[Event.status ("Skipping " ++ f ++ ": No prompt provided.")], [], []⟩ := by
  have hr : resolvePrompt pm f = "" := by simp [resolvePrompt, h]
  exact ⟨hr, fun env outF total i => fileTrace_eq_of_skip env pm outF total i f hr⟩

/-- C9 witness: pmEmptyEntry maps x.png to the empty string while its
global entry G is non-empty; x.png is still skipped. -/
theorem empty_per_file_entry_skips_witness :
    pmEmptyEntry "global" = some "G"
      ∧ resolvePrompt pmEmptyEntry "x.png" = ""
      ∧ fileTrace envAllOk pmEmptyEntry "out" 1 0 "x.png"
          = ⟨[Event.status ("Skipping " ++ "x.png" ++ ": No prompt provided.")], [], []⟩ := by
  obtain ⟨h1, h2⟩ := empty_per_file_entry_skips pmEmptyEntry "x.png" rfl
  exact ⟨rfl, h1, h2 envAllOk "out" 1 0⟩

/-- C10: with the output folder being the generated_images subdirectory of
the source folder, every write of a run targets a path joined under the
output folder, and no write ever targets the path of a source-folder entry
(directory entries contain no path separator), so source images are never
modified or overwritten — and the run performs no delete at all. -/
theorem writes_confined (env : Env) (pm : PromptMap) (src : String)
    (files : List String) (cidx : Option Nat) :
    (∀ w ∈ (run env files pm (outputFolderOf src) cidx).writes,
        ∃ b, w.1 = osJoin (outputFolderOf src) b)
      ∧ ∀ f, strHasSlash f = false →
          ∀ w ∈ (run env files pm (outputFolderOf src) cidx).writes,
            w.1 ≠ osJoin src f := by
  have hw : ∀ w ∈ (run env files pm (outputFolderOf src) cidx).writes,
      ∃ b, w.1 = osJoin (outputFolderOf src) b := by
    intro w hmem
    by_cases h : files.length = 0
    · simp [run, h] at hmem
    · rw [run_pos env files pm (outputFolderOf src) cidx h] at hmem
      exact runLoop_writes env pm (outputFolderOf src) files.length cidx files 0 w hmem
  refine ⟨hw, ?_⟩
  intro f hf w hmem
  obtain ⟨b, hb⟩ := hw w hmem
  rw [hb]
  exact osJoin_output_ne_source src f b hf

/-- C10 witness: the first write of a three-file run under src lands in
src/generated_images and differs from the source entry path src/a.png. -/
theorem writes_confined_witness :
    strHasSlash "a.png" = false
      ∧ (osJoin (outputFolderOf "src") ("a" ++ ".png"), ([1, 2, 3] : List Nat)).1
          ≠ osJoin "src" "a.png" := by
  refine ⟨by decide, ?_⟩
  exact (writes_confined envAllOk pmGlobal "src" files3 none).2 "a.png" (by decide)
    (osJoin (outputFolderOf "src") ("a" ++ ".png"), [1, 2, 3]) (by decide)

end DirPixel
